import Mathlib

/-!
Verification of the Sentinel AI anomaly-detection core
(`packages/ai-models/src/prometheus/models/sentinel.py`).

The development is a shallow embedding of the ensemble anomaly scorer
(`SentinelAI`) and the circuit breaker (`CircuitBreaker`) over exact
rationals (`ℚ` stands in for Python floats; all the comparisons and
arithmetic the claims concern are exact).  Timestamps are modelled as
rational numbers of seconds; `datetime.now()` becomes an explicit `now`
argument to the operations that read the clock.  The base detectors
(PyOD models) are external collaborators: each is an opaque per-row
scoring function, quantified over in the theorems.
-/

/-- `Severity` enumeration from `sentinel.py`. -/
inductive Severity where
  | LOW
  | MEDIUM
  | HIGH
  | CRITICAL
deriving DecidableEq

/-- `ThreatType` enumeration from `sentinel.py`. -/
inductive ThreatType where
  | NONE
  | HASHRATE_ANOMALY
  | EARNINGS_ANOMALY
  | WORKER_BEHAVIOR
  | NETWORK_ATTACK
  | POOL_HOPPING
  | SHARE_MANIPULATION
  | DDOS_ATTEMPT
  | UNKNOWN
deriving DecidableEq

/-- The `.value` string of a `ThreatType`, as in the Python enum. -/
def threatTypeValue : ThreatType → String
  | .NONE => "none"
  | .HASHRATE_ANOMALY => "hashrate_anomaly"
  | .EARNINGS_ANOMALY => "earnings_anomaly"
  | .WORKER_BEHAVIOR => "worker_behavior"
  | .NETWORK_ATTACK => "network_attack"
  | .POOL_HOPPING => "pool_hopping"
  | .SHARE_MANIPULATION => "share_manipulation"
  | .DDOS_ATTEMPT => "ddos_attempt"
  | .UNKNOWN => "unknown"

/-- The `.value` string of a `Severity`, as in the Python enum. -/
def severityValue : Severity → String
  | .LOW => "low"
  | .MEDIUM => "medium"
  | .HIGH => "high"
  | .CRITICAL => "critical"

/-- `AnomalyDetectionResult` dataclass.  The `timestamp` and `metadata`
fields (a wall-clock datetime and a free-form dict, never inspected by
the code under verification) are omitted. -/
structure AnomalyDetectionResult where
  is_anomaly : Bool
  threat_type : ThreatType
  severity : Severity
  confidence : ℚ
  anomaly_score : ℚ
  contributing_factors : List String
deriving DecidableEq

/-- The three base detectors held by `SentinelAI` (`_iforest`, `_lof`,
`_knn`).  PyOD's `decision_function` scores each row of its input matrix
independently of the other rows, so a fitted detector is modelled as an
opaque per-row scoring function. -/
structure Detectors where
  iforest : List ℚ → ℚ
  lof : List ℚ → ℚ
  knn : List ℚ → ℚ

/-- The scoring-relevant state of a `SentinelAI` instance: the
constructor arguments plus the feature statistics captured by `fit`
(`None` before fitting, exactly as in `__init__`). -/
structure SentinelAI where
  contamination : ℚ
  ensemble_weights : List ℚ
  feature_mean : Option (List ℚ)
  feature_std : Option (List ℚ)
  is_fitted : Bool
deriving DecidableEq

/-- The literal `1e-8` used throughout `sentinel.py`. -/
def eps : ℚ := 1 / 100000000

/-- Default ensemble weights `[0.4, 0.3, 0.3]` from `__init__`. -/
def defaultWeights : List ℚ := [2/5, 3/10, 3/10]

/-- `self.ensemble_weights = ensemble_weights or [0.4, 0.3, 0.3]`:
Python's `or` substitutes the default when the argument is `None`
*or* an empty (falsy) list. -/
def effectiveWeights (w : Option (List ℚ)) : List ℚ :=
  match w with
  | none => defaultWeights
  | some l => if l.isEmpty then defaultWeights else l

/-- Sum of a list of rationals (Python's `sum`). -/
def listSum (l : List ℚ) : ℚ := l.foldl (· + ·) 0

/-- `SentinelAI.__init__`: stores `contamination` and the (defaulted)
weights, then raises `ValueError("Ensemble weights must sum to 1.0")`
when `abs(sum(weights) - 1.0) > 0.001`.  No other validation of the
weights is performed. -/
def sentinelInit (contamination : ℚ) (w : Option (List ℚ)) :
    Except String SentinelAI :=
  let weights := effectiveWeights w
  if 1/1000 < |listSum weights - 1| then
    .error "Ensemble weights must sum to 1.0"
  else
    .ok { contamination := contamination
          ensemble_weights := weights
          feature_mean := none
          feature_std := none
          is_fitted := false }

/-- Whether construction succeeded (no `ValueError` raised). -/
def initOk (e : Except String SentinelAI) : Bool :=
  match e with
  | .ok _ => true
  | .error _ => false

/-- `SentinelAI._normalize`: `(data - mean) / (std + 1e-8)` per feature,
the identity when the statistics are not yet stored. -/
def sentinelNormalize (S : SentinelAI) (row : List ℚ) : List ℚ :=
  match S.feature_mean, S.feature_std with
  | some m, some sd =>
      List.zipWith (fun x ms => (x - ms.1) / (ms.2 + eps)) row (m.zip sd)
  | _, _ => row

/-- Minimum of a list (numpy `.min()`; `0` for the empty list, which
numpy would reject — every call site passes a non-empty batch). -/
def listMin : List ℚ → ℚ
  | [] => 0
  | x :: xs => xs.foldl min x

/-- Maximum of a list (numpy `.max()`; `0` for the empty list). -/
def listMax : List ℚ → ℚ
  | [] => 0
  | x :: xs => xs.foldl max x

/-- The inner `normalize_scores` of `_get_ensemble_score`: min-max
rescaling across the current batch, mapping everything to `0` when the
range is below `1e-8`. -/
def normalize_scores (scores : List ℚ) : List ℚ :=
  let min_s := listMin scores
  let max_s := listMax scores
  if max_s - min_s < eps then scores.map (fun _ => 0)
  else scores.map (fun s => (s - min_s) / (max_s - min_s))

/-- `SentinelAI._get_ensemble_score`: normalize the rows, score them
with each detector, min-max-rescale each detector's scores across the
batch, and combine with `ensemble_weights[0] .. ensemble_weights[2]`
(list indexing is modelled with `getD`; all theorems only instantiate
weight lists of length ≥ 3, where `getD` agrees with Python's `[i]`). -/
def ensembleScore (D : Detectors) (S : SentinelAI)
    (rows : List (List ℚ)) : List ℚ :=
  let normalized := rows.map (sentinelNormalize S)
  let iforest_scores := normalized.map D.iforest
  let lof_scores := normalized.map D.lof
  let knn_scores := normalized.map D.knn
  let iforest_norm := normalize_scores iforest_scores
  let lof_norm := normalize_scores lof_scores
  let knn_norm := normalize_scores knn_scores
  let w0 := S.ensemble_weights.getD 0 0
  let w1 := S.ensemble_weights.getD 1 0
  let w2 := S.ensemble_weights.getD 2 0
  List.zipWith (· + ·)
    (List.zipWith (· + ·) (iforest_norm.map (fun a => w0 * a))
      (lof_norm.map (fun a => w1 * a)))
    (knn_norm.map (fun a => w2 * a))

/-- Contributing-factor string for a hashrate deviation.  The Python
code renders the magnitude with `%.2f`; the exact rational rendering is
used here (`toString`), which the claims never inspect. -/
def hashrateFactor (z : ℚ) : String :=
  "hashrate_deviation: " ++ toString z ++ "σ"

/-- Contributing-factor string for an earnings deviation. -/
def earningsFactor (z : ℚ) : String :=
  "earnings_deviation: " ++ toString z ++ "σ"

/-- Contributing-factor string for a high reject rate. -/
def rejectFactor (z : ℚ) : String :=
  "high_reject_rate: " ++ toString z ++ "σ"

/-- `SentinelAI._classify_threat`.  The Python code tests feature slots
0 (hashrate), 1 (earnings) and 3 (reject rate), guarded by
`len(features) > idx`, computing `|x - mean| / (std + 1e-8)` with a
z-threshold of 3 (2 for reject rate), then applies the precedence
`SHARE_MANIPULATION / HASHRATE_ANOMALY / EARNINGS_ANOMALY /
NETWORK_ATTACK / UNKNOWN (score > 0.8) / NONE`.  The membership tests
`"hashrate_deviation" in str(factors)` are equivalent to the Boolean
flags because each factor string is produced exactly once. -/
def classifyThreat (S : SentinelAI) (features : List ℚ)
    (anomaly_score : ℚ) : ThreatType × List String :=
  let m := S.feature_mean.getD []
  let sd := S.feature_std.getD []
  let z := fun (i : Nat) =>
    |features.getD i 0 - m.getD i 0| / (sd.getD i 0 + eps)
  let hashFlag := decide (0 < features.length) && decide (3 < z 0)
  let earnFlag := decide (1 < features.length) && decide (3 < z 1)
  let rejectFlag := decide (3 < features.length) && decide (2 < z 3)
  let factors :=
    (if hashFlag then [hashrateFactor (z 0)] else []) ++
    (if earnFlag then [earningsFactor (z 1)] else []) ++
    (if rejectFlag then [rejectFactor (z 3)] else [])
  if hashFlag then
    if earnFlag then (.SHARE_MANIPULATION, factors)
    else (.HASHRATE_ANOMALY, factors)
  else if earnFlag then (.EARNINGS_ANOMALY, factors)
  else if rejectFlag then (.NETWORK_ATTACK, factors)
  else if 4/5 < anomaly_score then (.UNKNOWN, factors)
  else (.NONE, factors)

/-- `SentinelAI._determine_severity` with the threshold dict set up in
`__init__` (`LOW: 0.3, MEDIUM: 0.5, HIGH: 0.7, CRITICAL: 0.9`). -/
def determineSeverity (anomaly_score : ℚ) : Severity :=
  if 9/10 ≤ anomaly_score then .CRITICAL
  else if 7/10 ≤ anomaly_score then .HIGH
  else if 1/2 ≤ anomaly_score then .MEDIUM
  else if 3/10 ≤ anomaly_score then .LOW
  else .LOW

/-- The effective threshold of `detect`:
`threshold = threshold or (1 - self.contamination)`.  Python's `or`
replaces both `None` and the falsy float `0.0` with the default. -/
def effThreshold (threshold : Option ℚ) (S : SentinelAI) : ℚ :=
  match threshold with
  | none => 1 - S.contamination
  | some t => if t = 0 then 1 - S.contamination else t

/-- `SentinelAI.detect` on a single feature vector (the `ndim == 1`
path: the vector is reshaped into a one-row batch and the first score is
used).  The unfitted-model `ValueError` guard and the history append are
side conditions modelled separately; this is the pure result. -/
def detect (D : Detectors) (S : SentinelAI) (features : List ℚ)
    (threshold : Option ℚ) : AnomalyDetectionResult :=
  let anomaly_scores := ensembleScore D S [features]
  let anomaly_score := anomaly_scores.headD 0
  let th := effThreshold threshold S
  let is_anomaly := decide (th < anomaly_score)
  let tc := classifyThreat S features anomaly_score
  let severity := determineSeverity anomaly_score
  let margin := |anomaly_score - th|
  let confidence := min 1 (1/2 + margin)
  { is_anomaly := is_anomaly
    threat_type := if is_anomaly then tc.1 else .NONE
    severity := if is_anomaly then severity else .LOW
    confidence := confidence
    anomaly_score := anomaly_score
    contributing_factors := tc.2 }

/-- `SentinelAI.detect_batch`: `results = []`, then one `detect` per row
in order, appending each result. -/
def detect_batch (D : Detectors) (S : SentinelAI)
    (rows : List (List ℚ)) (threshold : Option ℚ) :
    List AnomalyDetectionResult :=
  rows.foldl (fun acc v => acc ++ [detect D S v threshold]) []

/-- The three states of `CircuitBreaker._state`
(`"closed"`, `"open"`, `"half_open"`). -/
inductive CBState where
  | closed
  | opened
  | halfOpen
deriving DecidableEq

/-- The mutable state of a `CircuitBreaker` instance together with its
constructor parameters.  Timestamps are rational seconds; every method
that calls `datetime.now()` takes the current time explicitly.  The
listener callback lists are omitted: callbacks observe transitions but
never influence breaker state (their exceptions are swallowed). -/
structure CircuitBreaker where
  failure_threshold : Nat
  recovery_timeout : ℚ
  half_open_max_calls : Nat
  failures : Nat
  successes_in_half_open : Nat
  state : CBState
  last_failure_time : Option ℚ
  last_failure_reason : Option String
deriving DecidableEq

/-- `CircuitBreaker.__init__`. -/
def mkCircuitBreaker (failure_threshold : Nat) (recovery_timeout : ℚ)
    (half_open_max_calls : Nat) : CircuitBreaker :=
  { failure_threshold := failure_threshold
    recovery_timeout := recovery_timeout
    half_open_max_calls := half_open_max_calls
    failures := 0
    successes_in_half_open := 0
    state := .closed
    last_failure_time := none
    last_failure_reason := none }

/-- `CircuitBreaker._transition_to_open`. -/
def transitionToOpen (reason : String) (b : CircuitBreaker) :
    CircuitBreaker :=
  { b with state := .opened, last_failure_reason := some reason }

/-- `CircuitBreaker._transition_to_half_open`. -/
def transitionToHalfOpen (b : CircuitBreaker) : CircuitBreaker :=
  { b with state := .halfOpen, successes_in_half_open := 0 }

/-- `CircuitBreaker._transition_to_closed`. -/
def transitionToClosed (b : CircuitBreaker) : CircuitBreaker :=
  { b with state := .closed
           failures := 0
           successes_in_half_open := 0
           last_failure_reason := none }

/-- `CircuitBreaker._check_state_transition`: when the breaker is open
and a last-failure time exists, move to half-open once
`now - lastFailureTime ≥ recoveryTimeout`. -/
def checkStateTransition (now : ℚ) (b : CircuitBreaker) :
    CircuitBreaker :=
  if b.state = .opened then
    match b.last_failure_time with
    | some t =>
        if b.recovery_timeout ≤ now - t then transitionToHalfOpen b else b
    | none => b
  else b

/-- `CircuitBreaker.record_failure`: increment the counter, stamp the
failure time, then open immediately from half-open or when the counter
has reached the threshold. -/
def record_failure (reason : String) (now : ℚ) (b : CircuitBreaker) :
    CircuitBreaker :=
  let b1 := { b with failures := b.failures + 1
                     last_failure_time := some now }
  if b1.state = .halfOpen then transitionToOpen reason b1
  else if b1.failure_threshold ≤ b1.failures then transitionToOpen reason b1
  else b1

/-- `CircuitBreaker.record_success`: in half-open, count the success and
close after `half_open_max_calls` of them; in closed, decrement the
failure counter with a floor of `0` (`max(0, failures - 1)`, which is
`Nat` truncated subtraction); in open, do nothing. -/
def record_success (b : CircuitBreaker) : CircuitBreaker :=
  if b.state = .halfOpen then
    let b1 := { b with
      successes_in_half_open := b.successes_in_half_open + 1 }
    if b1.half_open_max_calls ≤ b1.successes_in_half_open then
      transitionToClosed b1
    else b1
  else if b.state = .closed then
    { b with failures := b.failures - 1 }
  else b

/-- The `is_open` property: lazy transition check, then read.  Returns
the value together with the updated breaker (the Python property
mutates `self`). -/
def is_open (now : ℚ) (b : CircuitBreaker) : Bool × CircuitBreaker :=
  let b1 := checkStateTransition now b
  (decide (b1.state = .opened), b1)

/-- The `state` property: lazy transition check, then read. -/
def state_read (now : ℚ) (b : CircuitBreaker) :
    CBState × CircuitBreaker :=
  let b1 := checkStateTransition now b
  (b1.state, b1)

/-- `CircuitBreaker.can_execute`: lazy transition check, then allow
unless open. -/
def can_execute (now : ℚ) (b : CircuitBreaker) :
    Bool × CircuitBreaker :=
  let b1 := checkStateTransition now b
  (decide (b1.state ≠ .opened), b1)

/-- The `CircuitBreakerState` dataclass returned by `get_state`. -/
structure CircuitBreakerSnapshot where
  is_open : Bool
  failures : Nat
  last_failure : Option ℚ
  recovery_time : Option ℚ
  reason : Option String
deriving DecidableEq

/-- `CircuitBreaker.get_state`: lazy transition check, then a snapshot;
`recovery_time = last_failure_time + recovery_timeout` when still
open. -/
def get_state (now : ℚ) (b : CircuitBreaker) :
    CircuitBreakerSnapshot × CircuitBreaker :=
  let b1 := checkStateTransition now b
  let recovery_time :=
    if b1.state = .opened then
      b1.last_failure_time.map (fun t => t + b1.recovery_timeout)
    else none
  ({ is_open := decide (b1.state = .opened)
     failures := b1.failures
     last_failure := b1.last_failure_time
     recovery_time := recovery_time
     reason := b1.last_failure_reason }, b1)

/-- The severity-weight dict of `CircuitBreaker.process_detection`
(`LOW: 0.5, MEDIUM: 1.0, HIGH: 2.0, CRITICAL: 3.0`; the `.get` default
`1.0` is unreachable on the closed enumeration). -/
def severityWeight : Severity → ℚ
  | .LOW => 1/2
  | .MEDIUM => 1
  | .HIGH => 2
  | .CRITICAL => 3

/-- `int(weight)` from `process_detection`: Python `int()` truncates
toward zero, which is the floor for these non-negative weights. -/
def severityIntWeight (s : Severity) : Nat :=
  (severityWeight s).floor.toNat

/-- The failure reason string built by `process_detection`
(`f"{threat} - {severity} (score: {score:.3f})"`; the score is rendered
exactly rather than with `%.3f`). -/
def detectionReason (r : AnomalyDetectionResult) : String :=
  threatTypeValue r.threat_type ++ " - " ++ severityValue r.severity ++
    " (score: " ++ toString r.anomaly_score ++ ")"

/-- `CircuitBreaker.process_detection`: an anomalous result records
`int(weight)` failures (all with the same reason string and clock
reading); a non-anomalous result records exactly one success. -/
def processDetection (r : AnomalyDetectionResult) (now : ℚ)
    (b : CircuitBreaker) : CircuitBreaker :=
  if r.is_anomaly then
    (fun bb => record_failure (detectionReason r) now bb)^[severityIntWeight r.severity] b
  else record_success b

/-- Concrete detectors used for instantiations: each scores a row by its
first entry. -/
def sampleDetectors : Detectors :=
  { iforest := fun v => v.headD 0
    lof := fun v => v.headD 0
    knn := fun v => v.headD 0 }

/-- A fitted scorer with the default configuration (`contamination=0.1`,
weights `[0.4, 0.3, 0.3]`, mean `[0]`, std `[1]`). -/
def sampleSentinel : SentinelAI :=
  { contamination := 1/10
    ensemble_weights := [2/5, 3/10, 3/10]
    feature_mean := some [0]
    feature_std := some [1]
    is_fitted := true }

/-- A fitted scorer whose weights `[0.4, 0.3, 0.301]` are non-negative
and sum to `1.001`, inside the constructor's `0.001` tolerance. -/
def wideSentinel : SentinelAI :=
  { contamination := 1/10
    ensemble_weights := [2/5, 3/10, 301/1000]
    feature_mean := some [0]
    feature_std := some [1]
    is_fitted := true }

/-- A breaker in the closed state with one accumulated failure. -/
def closedSample : CircuitBreaker :=
  { failure_threshold := 3
    recovery_timeout := 60
    half_open_max_calls := 3
    failures := 1
    successes_in_half_open := 0
    state := .closed
    last_failure_time := none
    last_failure_reason := none }

/-- A breaker probing recovery in the half-open state
(`half_open_max_calls = 2`). -/
def halfOpenSample : CircuitBreaker :=
  { failure_threshold := 3
    recovery_timeout := 60
    half_open_max_calls := 2
    failures := 4
    successes_in_half_open := 0
    state := .halfOpen
    last_failure_time := some 10
    last_failure_reason := some "overload" }

/-- An open breaker whose last failure happened at time `0`. -/
def openSample : CircuitBreaker :=
  { failure_threshold := 3
    recovery_timeout := 60
    half_open_max_calls := 3
    failures := 3
    successes_in_half_open := 0
    state := .opened
    last_failure_time := some 0
    last_failure_reason := some "ddos_attempt" }

/-- An anomalous detection result of CRITICAL severity. -/
def criticalSample : AnomalyDetectionResult :=
  { is_anomaly := true
    threat_type := .UNKNOWN
    severity := .CRITICAL
    confidence := 1
    anomaly_score := 19/20
    contributing_factors := [] }

/-- A batch of one score always rescales to `[0]`: the range is `0`,
below the `1e-8` cutoff. -/
theorem normalize_scores_singleton (x : ℚ) : normalize_scores [x] = [0] := by
  simp [normalize_scores, listMin, listMax, eps]

/-- The ensemble score of a one-row batch is `[0]` whatever the
detectors, weights and statistics: every detector's score rescales
degenerately to `0`. -/
theorem ensembleScore_single (D : Detectors) (S : SentinelAI)
    (v : List ℚ) : ensembleScore D S [v] = [0] := by
  simp [ensembleScore, normalize_scores_singleton]

/-- The anomaly score reported by `detect` is always `0`: the single
vector forms its own one-point batch. -/
theorem detect_anomaly_score (D : Detectors) (S : SentinelAI)
    (v : List ℚ) (topt : Option ℚ) :
    (detect D S v topt).anomaly_score = 0 := by
  simp [detect, ensembleScore_single]

/-- `record_failure` always increments the failure counter by exactly
one, in every state (the open transitions do not touch the counter). -/
theorem record_failure_failures (reason : String) (now : ℚ)
    (b : CircuitBreaker) :
    (record_failure reason now b).failures = b.failures + 1 := by
  unfold record_failure transitionToOpen
  dsimp only
  split
  · rfl
  · split <;> rfl

/-- Iterating `record_failure` adds the iteration count to the failure
counter. -/
theorem record_failure_iterate_failures (reason : String) (now : ℚ) :
    ∀ (n : Nat) (b : CircuitBreaker),
      ((fun bb => record_failure reason now bb)^[n] b).failures =
        b.failures + n := by
  intro n
  induction n with
  | zero => intro b; simp
  | succ k ih =>
      intro b
      rw [Function.iterate_succ_apply]
      rw [ih (record_failure reason now b)]
      rw [record_failure_failures]
      omega

/-- `record_failure` never yields the half-open state. -/
theorem record_failure_not_halfOpen (reason : String) (now : ℚ)
    (b : CircuitBreaker) :
    (record_failure reason now b).state ≠ CBState.halfOpen := by
  unfold record_failure transitionToOpen
  dsimp only
  split
  · simp
  · split
    · simp
    · rename_i h1 h2
      simpa using h1

/-- Folding `min` only lowers the accumulator. -/
theorem foldl_min_le_acc :
    ∀ (xs : List ℚ) (a : ℚ), xs.foldl min a ≤ a := by
  intro xs
  induction xs with
  | nil => intro a; exact le_refl a
  | cons y ys ih =>
      intro a
      exact le_trans (ih (min a y)) (min_le_left a y)

/-- The `min`-fold is below every list element. -/
theorem foldl_min_le_of_mem :
    ∀ {xs : List ℚ} (a : ℚ) {x : ℚ}, x ∈ xs → xs.foldl min a ≤ x := by
  intro xs
  induction xs with
  | nil => intro a x hx; cases hx
  | cons y ys ih =>
      intro a x hx
      rcases List.mem_cons.1 hx with h | h
      · subst h
        exact le_trans (foldl_min_le_acc ys (min a x)) (min_le_right a x)
      · exact ih (min a y) h

/-- `listMin` is a lower bound for the list's elements. -/
theorem listMin_le_of_mem {l : List ℚ} {x : ℚ} (hx : x ∈ l) :
    listMin l ≤ x := by
  cases l with
  | nil => cases hx
  | cons y ys =>
      rcases List.mem_cons.1 hx with h | h
      · subst h; exact foldl_min_le_acc ys x
      · exact foldl_min_le_of_mem y h

/-- Folding `max` only raises the accumulator. -/
theorem acc_le_foldl_max :
    ∀ (xs : List ℚ) (a : ℚ), a ≤ xs.foldl max a := by
  intro xs
  induction xs with
  | nil => intro a; exact le_refl a
  | cons y ys ih =>
      intro a
      exact le_trans (le_max_left a y) (ih (max a y))

/-- The `max`-fold is above every list element. -/
theorem le_foldl_max_of_mem :
    ∀ {xs : List ℚ} (a : ℚ) {x : ℚ}, x ∈ xs → x ≤ xs.foldl max a := by
  intro xs
  induction xs with
  | nil => intro a x hx; cases hx
  | cons y ys ih =>
      intro a x hx
      rcases List.mem_cons.1 hx with h | h
      · subst h
        exact le_trans (le_max_right a x) (acc_le_foldl_max ys (max a x))
      · exact ih (max a y) h

/-- `listMax` is an upper bound for the list's elements. -/
theorem le_listMax_of_mem {l : List ℚ} {x : ℚ} (hx : x ∈ l) :
    x ≤ listMax l := by
  cases l with
  | nil => cases hx
  | cons y ys =>
      rcases List.mem_cons.1 hx with h | h
      · subst h; exact acc_le_foldl_max ys x
      · exact le_foldl_max_of_mem y h

/-- Every output of the per-detector min-max rescale lies in `[0, 1]`:
the degenerate branch returns zeros, the other divides a value between
`min` and `max` by the (positive) range. -/
theorem normalize_scores_mem_bounds {l : List ℚ} {x : ℚ}
    (hx : x ∈ normalize_scores l) : 0 ≤ x ∧ x ≤ 1 := by
  unfold normalize_scores at hx
  dsimp only at hx
  split at hx
  · rcases List.mem_map.1 hx with ⟨s, _, hs⟩
    subst hs
    norm_num
  · rename_i hrange
    rcases List.mem_map.1 hx with ⟨s, hsmem, hs⟩
    subst hs
    have h1 : listMin l ≤ s := listMin_le_of_mem hsmem
    have h2 : s ≤ listMax l := le_listMax_of_mem hsmem
    have hpos : 0 < listMax l - listMin l := by
      have : eps ≤ listMax l - listMin l := not_lt.1 hrange
      have heps : (0 : ℚ) < eps := by norm_num [eps]
      linarith
    constructor
    · exact div_nonneg (by linarith) hpos.le
    · rw [div_le_one hpos]
      linarith

/-- An element of `zipWith f` decomposes into elements of the two input
lists. -/
theorem exists_of_mem_zipWith {α β γ : Type} {f : α → β → γ} :
    ∀ {as : List α} {bs : List β} {c : γ}, c ∈ List.zipWith f as bs →
      ∃ a, a ∈ as ∧ ∃ b, b ∈ bs ∧ c = f a b := by
  intro as
  induction as with
  | nil => intro bs c hc; simp at hc
  | cons a0 as0 ih =>
      intro bs c hc
      cases bs with
      | nil => simp at hc
      | cons b0 bs0 =>
          rcases List.mem_cons.1 hc with h | h
          · exact ⟨a0, List.mem_cons_self a0 as0,
              b0, List.mem_cons_self b0 bs0, h⟩
          · rcases ih h with ⟨a, ha, b, hb, hab⟩
            exact ⟨a, List.mem_cons_of_mem a0 ha,
              b, List.mem_cons_of_mem b0 hb, hab⟩

/-- Every ensemble score is a weighted sum `w0*a + w1*b + w2*c` of three
rescaled detector scores, each in `[0, 1]`. -/
theorem ensembleScore_decompose (D : Detectors) (S : SentinelAI)
    (rows : List (List ℚ)) {x : ℚ} (hx : x ∈ ensembleScore D S rows) :
    ∃ a b c : ℚ, (0 ≤ a ∧ a ≤ 1) ∧ (0 ≤ b ∧ b ≤ 1) ∧ (0 ≤ c ∧ c ≤ 1) ∧
      x = S.ensemble_weights.getD 0 0 * a + S.ensemble_weights.getD 1 0 * b
            + S.ensemble_weights.getD 2 0 * c := by
  unfold ensembleScore at hx
  dsimp only at hx
  rcases exists_of_mem_zipWith hx with ⟨u, hu, z, hz, huz⟩
  rcases exists_of_mem_zipWith hu with ⟨p, hp, q, hq, hpq⟩
  rcases List.mem_map.1 hp with ⟨a, ha, hpa⟩
  rcases List.mem_map.1 hq with ⟨b, hb, hqb⟩
  rcases List.mem_map.1 hz with ⟨c, hc, hzc⟩
  refine ⟨a, b, c, normalize_scores_mem_bounds ha,
    normalize_scores_mem_bounds hb, normalize_scores_mem_bounds hc, ?_⟩
  subst huz hpq hpa hqb hzc
  ring

/-- A weighted sum of `[0, 1]` values with non-negative weights lies in
`[0, w0 + w1 + w2]`. -/
theorem weighted_sum_bounds {w0 w1 w2 a b c : ℚ}
    (h0 : 0 ≤ w0) (h1 : 0 ≤ w1) (h2 : 0 ≤ w2)
    (ha : 0 ≤ a ∧ a ≤ 1) (hb : 0 ≤ b ∧ b ≤ 1) (hc : 0 ≤ c ∧ c ≤ 1) :
    0 ≤ w0 * a + w1 * b + w2 * c ∧
      w0 * a + w1 * b + w2 * c ≤ w0 + w1 + w2 := by
  constructor
  · have := mul_nonneg h0 ha.1
    have := mul_nonneg h1 hb.1
    have := mul_nonneg h2 hc.1
    linarith
  · have p0 : w0 * a ≤ w0 := by
      calc w0 * a ≤ w0 * 1 := mul_le_mul_of_nonneg_left ha.2 h0
        _ = w0 := mul_one w0
    have p1 : w1 * b ≤ w1 := by
      calc w1 * b ≤ w1 * 1 := mul_le_mul_of_nonneg_left hb.2 h1
        _ = w1 := mul_one w1
    have p2 : w2 * c ≤ w2 := by
      calc w2 * c ≤ w2 * 1 := mul_le_mul_of_nonneg_left hc.2 h2
        _ = w2 := mul_one w2
    linarith

/-- `detect_batch` is the pointwise map of `detect` over the rows: the
loop appends one `detect` result per row, in order. -/
theorem detect_batch_eq_map (D : Detectors) (S : SentinelAI)
    (rows : List (List ℚ)) (topt : Option ℚ) :
    detect_batch D S rows topt = rows.map (fun v => detect D S v topt) := by
  unfold detect_batch
  suffices h : ∀ (rs : List (List ℚ)) (acc : List AnomalyDetectionResult),
      rs.foldl (fun a v => a ++ [detect D S v topt]) acc =
        acc ++ rs.map (fun v => detect D S v topt) by
    simpa using h rows []
  intro rs
  induction rs with
  | nil => intro acc; simp
  | cons r rest ih =>
      intro acc
      simp [ih, List.append_assoc]

/-- Running `record_success` from half-open with the success counter `k`
short of the limit closes the breaker after exactly `k` calls, resetting
both counters. -/
theorem record_success_halfOpen_run :
    ∀ (k : Nat) (b : CircuitBreaker), b.state = CBState.halfOpen →
      b.successes_in_half_open + k = b.half_open_max_calls → 1 ≤ k →
      (record_success^[k] b).state = CBState.closed ∧
      (record_success^[k] b).failures = 0 ∧
      (record_success^[k] b).successes_in_half_open = 0 := by
  intro k
  induction k with
  | zero => intro b _ _ hk; exact absurd hk (by norm_num)
  | succ n ih =>
      intro b hb hsum _
      rw [Function.iterate_succ_apply]
      by_cases hn : n = 0
      · subst hn
        have hclose : record_success b =
            transitionToClosed { b with
              successes_in_half_open := b.successes_in_half_open + 1 } := by
          unfold record_success
          dsimp only
          rw [if_pos hb, if_pos (by omega)]
        rw [Function.iterate_zero_apply, hclose]
        exact ⟨rfl, rfl, rfl⟩
      · have hn1 : 1 ≤ n := Nat.one_le_iff_ne_zero.2 hn
        have hstay : record_success b =
            { b with successes_in_half_open := b.successes_in_half_open + 1 } := by
          unfold record_success
          dsimp only
          rw [if_pos hb, if_neg (by omega)]
        rw [hstay]
        exact ih _ hb (by dsimp only; omega) hn1

/-- A `record_failure` that stays below the threshold in a non-half-open
state only bumps the counter and the failure time. -/
theorem record_failure_closed_step (r : String) (now : ℚ)
    (b : CircuitBreaker) (h : b.state ≠ CBState.halfOpen)
    (hlt : b.failures + 1 < b.failure_threshold) :
    record_failure r now b =
      { b with failures := b.failures + 1, last_failure_time := some now } := by
  unfold record_failure
  dsimp only
  rw [if_neg h, if_neg (by omega)]

/-- A `record_failure` that reaches the threshold in a non-half-open
state opens the breaker. -/
theorem record_failure_opens_step (r : String) (now : ℚ)
    (b : CircuitBreaker) (h : b.state ≠ CBState.halfOpen)
    (hge : b.failure_threshold ≤ b.failures + 1) :
    record_failure r now b =
      transitionToOpen r
        { b with failures := b.failures + 1, last_failure_time := some now } := by
  unfold record_failure
  dsimp only
  rw [if_neg h, if_pos hge]

/-- Once the incremented counter meets the threshold, `record_failure`
leaves the breaker open whatever the starting state. -/
theorem record_failure_opens (r : String) (now : ℚ) (b : CircuitBreaker)
    (hge : b.failure_threshold ≤ b.failures + 1) :
    (record_failure r now b).state = CBState.opened := by
  by_cases hh : b.state = CBState.halfOpen
  · unfold record_failure
    dsimp only
    rw [if_pos hh]
    rfl
  · unfold record_failure
    dsimp only
    rw [if_neg hh, if_pos hge]
    rfl

/-- `record_failure` always stamps the failure time with the clock
reading. -/
theorem record_failure_time (r : String) (now : ℚ) (b : CircuitBreaker) :
    (record_failure r now b).last_failure_time = some now := by
  unfold record_failure transitionToOpen
  dsimp only
  split
  · rfl
  · split <;> rfl

/-- Reading `is_open` on a breaker that is not open reports `false`
(the lazy check leaves such a breaker untouched). -/
theorem is_open_false_of_not_open (now : ℚ) (b : CircuitBreaker)
    (h : b.state ≠ CBState.opened) : (is_open now b).1 = false := by
  unfold is_open checkStateTransition
  dsimp only
  rw [if_neg h]
  simp [h]

/-- Reading `is_open` on an open breaker before the recovery timeout
reports `true`. -/
theorem is_open_true_of_recent (now : ℚ) (b : CircuitBreaker) (t : ℚ)
    (h : b.state = CBState.opened) (ht : b.last_failure_time = some t)
    (hrec : now - t < b.recovery_timeout) : (is_open now b).1 = true := by
  unfold is_open checkStateTransition
  dsimp only
  rw [if_pos h, ht]
  dsimp only
  rw [if_neg (not_le.2 hrec)]
  simp [h]

/-- Construction succeeds exactly when the (defaulted) weights sum to
within `0.001` of `1`. -/
theorem initOk_iff (c : ℚ) (w : Option (List ℚ)) :
    initOk (sentinelInit c w) = true ↔
      |listSum (effectiveWeights w) - 1| ≤ 1/1000 := by
  unfold sentinelInit
  dsimp only
  by_cases h : (1 : ℚ)/1000 < |listSum (effectiveWeights w) - 1|
  · rw [if_pos h]
    constructor
    · intro hx
      simp only [initOk] at hx
      exact Bool.noConfusion hx
    · intro hx
      exact absurd hx (not_le.2 h)
  · rw [if_neg h]
    constructor
    · intro _
      exact not_lt.1 h
    · intro _
      rfl

/-- C2: Scoring a batch consisting of a single feature vector produces a
rescaled score of 0 for every detector (min equals max, the range is
below 1e-8, and the degenerate rescale maps to 0), hence an ensemble
score of 0, regardless of the detectors' raw scores, the weights and the
feature statistics. -/
theorem single_point_batch_scores_zero :
    (∀ x : ℚ, normalize_scores [x] = [0]) ∧
    (∀ (D : Detectors) (S : SentinelAI) (v : List ℚ),
      ensembleScore D S [v] = [0]) :=
  ⟨normalize_scores_singleton, ensembleScore_single⟩

/-- C10: Calling `detect` with an explicit threshold of `0.0` does not
use that threshold: Python's `threshold or (1 - contamination)` treats
`0.0` as falsy, so the call returns exactly the result of a call with no
threshold, and a zero anomaly threshold cannot be requested. -/
theorem zero_threshold_ignored (D : Detectors) (S : SentinelAI)
    (v : List ℚ) :
    detect D S v (some 0) = detect D S v none := by
  simp [detect, effThreshold]

/-- C1: For a fitted scorer with contamination at most 1, `detect` marks
a vector anomalous exactly when the computed ensemble score strictly
exceeds the threshold — the supplied value, or `1 - contamination` when
none is supplied (`0.9` for the default `contamination = 0.1`).  The
equivalence survives even the falsy `0.0` threshold because the ensemble
score of a single vector is always 0. -/
theorem sentinel_detect_threshold_iff (D : Detectors) (S : SentinelAI)
    (v : List ℚ) (topt : Option ℚ) (hc : S.contamination ≤ 1) :
    ((detect D S v topt).is_anomaly = true ↔
      topt.getD (1 - S.contamination) < (ensembleScore D S [v]).headD 0) ∧
    (S.contamination = 1/10 → (1 : ℚ) - S.contamination = 9/10) := by
  constructor
  · have hA : (detect D S v topt).is_anomaly =
        decide (effThreshold topt S < 0) := by
      simp [detect, ensembleScore_single]
    have hS : (ensembleScore D S [v]).headD 0 = 0 := by
      rw [ensembleScore_single]
      rfl
    rw [hA, hS, decide_eq_true_eq]
    cases topt with
    | none => simp [effThreshold]
    | some t =>
        by_cases ht : t = 0
        · subst ht
          have heff : effThreshold (some 0) S = 1 - S.contamination := by
            unfold effThreshold
            exact if_pos rfl
          rw [heff, Option.getD_some]
          constructor
          · intro h
            exact absurd h (by linarith)
          · intro h
            exact absurd h (lt_irrefl 0)
        · simp [effThreshold, ht]
  · intro h
    rw [h]
    norm_num

/-- Witness for C1 at the default configuration and the falsy zero
threshold. -/
theorem sentinel_detect_threshold_iff_witness :
    (detect sampleDetectors sampleSentinel [1] (some 0)).is_anomaly = true ↔
      (Option.some (0 : ℚ)).getD (1 - sampleSentinel.contamination) <
        (ensembleScore sampleDetectors sampleSentinel [[1]]).headD 0 :=
  (sentinel_detect_threshold_iff sampleDetectors sampleSentinel [1] (some 0)
    (by norm_num [sampleSentinel])).1

/-- C3 counterexample: on the two-row batch `[[0], [1]]` with the
default configuration, `detect_batch` returns exactly the pointwise
`detect` results (anomaly scores `[0, 0]`), while the joint rescaling of
`_get_ensemble_score` over the same batch yields `[0, 1]` — so
`detect_batch` does *not* perform joint batch rescaling, and its results
do not differ from per-row `detect` calls. -/
theorem detect_batch_matches_pointwise_detect :
    detect_batch sampleDetectors sampleSentinel [[0], [1]] none =
      [detect sampleDetectors sampleSentinel [0] none,
       detect sampleDetectors sampleSentinel [1] none] ∧
    (detect_batch sampleDetectors sampleSentinel [[0], [1]] none).map
      (fun r => r.anomaly_score) = [0, 0] ∧
    ensembleScore sampleDetectors sampleSentinel [[0], [1]] = [0, 1] ∧
    ([0, (1 : ℚ)] ≠ [0, 0]) := by
  refine ⟨?_, ?_, ?_, ?_⟩
  · rw [detect_batch_eq_map]
    rfl
  · rw [detect_batch_eq_map]
    simp [detect_anomaly_score]
  · norm_num [ensembleScore, sentinelNormalize, sampleDetectors, sampleSentinel,
      normalize_scores, listMin, listMax, eps, min_def, max_def]
  · norm_num

/-- C3 (amended): `detect_batch` applies `detect` to each row in order
and is pointwise equal to per-row `detect` calls; each row is rescaled
in isolation as a one-point batch, so every reported anomaly score is 0.
Joint batch rescaling happens only when a multi-row batch is given to
`_get_ensemble_score` directly. -/
theorem detect_batch_is_pointwise (D : Detectors) (S : SentinelAI)
    (rows : List (List ℚ)) (topt : Option ℚ) :
    detect_batch D S rows topt = rows.map (fun v => detect D S v topt) ∧
    (detect_batch D S rows topt).map (fun r => r.anomaly_score) =
      rows.map (fun _ => (0 : ℚ)) := by
  constructor
  · exact detect_batch_eq_map D S rows topt
  · rw [detect_batch_eq_map D S rows topt]
    induction rows with
    | nil => rfl
    | cons r rest ih => simp [detect_anomaly_score, ih]

/-- C4 counterexample: a sub-threshold `record_failure` in the closed
state does *not* record the failure reason — after one failure on a
fresh breaker with threshold 3, `last_failure_reason` is still `none`
rather than the supplied reason, and the breaker is still closed. -/
theorem record_failure_reason_not_recorded :
    (mkCircuitBreaker 3 60 3).state = CBState.closed ∧
    (record_failure "net down" 0 (mkCircuitBreaker 3 60 3)).last_failure_reason
      = none ∧
    (record_failure "net down" 0 (mkCircuitBreaker 3 60 3)).state
      = CBState.closed := by
  have h : record_failure "net down" 0 (mkCircuitBreaker 3 60 3) =
      { failure_threshold := 3, recovery_timeout := 60,
        half_open_max_calls := 3, failures := 1,
        successes_in_half_open := 0, state := .closed,
        last_failure_time := some 0, last_failure_reason := none } := by
    rw [record_failure_closed_step _ _ _ (by decide) (by decide)]
    rfl
  rw [h]
  exact ⟨rfl, rfl, rfl⟩

/-- C4 (amended): in the closed state every `record_failure` increments
the counter by exactly 1 and records the failure time, but the reason is
recorded only when the call reaches `failure_threshold` and opens the
breaker (a sub-threshold call leaves `last_failure_reason` unchanged);
every `record_success` decrements the counter by 1 with a floor of 0 and
stays closed; the breaker opens exactly when the counter reaches the
threshold; with threshold 3, three failures from a fresh breaker make
`is_open` true while two leave it false. -/
theorem closed_state_counter_dynamics (b : CircuitBreaker) (r : String)
    (now : ℚ) (h : b.state = CBState.closed) :
    (record_failure r now b).failures = b.failures + 1 ∧
    (record_failure r now b).last_failure_time = some now ∧
    (b.failures + 1 < b.failure_threshold →
      (record_failure r now b).state = CBState.closed ∧
      (record_failure r now b).last_failure_reason
        = b.last_failure_reason) ∧
    (b.failure_threshold ≤ b.failures + 1 →
      (record_failure r now b).state = CBState.opened ∧
      (record_failure r now b).last_failure_reason = some r) ∧
    (record_success b).failures = b.failures - 1 ∧
    (record_success b).state = CBState.closed ∧
    (is_open 0 (record_failure "f" 0 (record_failure "f" 0
      (record_failure "f" 0 (mkCircuitBreaker 3 60 3))))).1 = true ∧
    (is_open 0 (record_failure "f" 0 (record_failure "f" 0
      (mkCircuitBreaker 3 60 3)))).1 = false := by
  have hnh : b.state ≠ CBState.halfOpen := by
    rw [h]
    exact fun hx => CBState.noConfusion hx
  have hsucc : record_success b = { b with failures := b.failures - 1 } := by
    unfold record_success
    dsimp only
    rw [if_neg hnh, if_pos h]
  have h1 : record_failure "f" 0 (mkCircuitBreaker 3 60 3) =
      { failure_threshold := 3, recovery_timeout := 60,
        half_open_max_calls := 3, failures := 1,
        successes_in_half_open := 0, state := .closed,
        last_failure_time := some 0, last_failure_reason := none } := by
    rw [record_failure_closed_step _ _ _ (by decide) (by decide)]
    rfl
  have h2 : record_failure "f" 0 (record_failure "f" 0
      (mkCircuitBreaker 3 60 3)) =
      { failure_threshold := 3, recovery_timeout := 60,
        half_open_max_calls := 3, failures := 2,
        successes_in_half_open := 0, state := .closed,
        last_failure_time := some 0, last_failure_reason := none } := by
    rw [h1, record_failure_closed_step _ _ _ (by decide) (by decide)]
  refine ⟨record_failure_failures r now b, record_failure_time r now b,
    ?_, ?_, ?_, ?_, ?_, ?_⟩
  · intro hlt
    rw [record_failure_closed_step r now b hnh hlt]
    exact ⟨h, rfl⟩
  · intro hge
    rw [record_failure_opens_step r now b hnh hge]
    exact ⟨rfl, rfl⟩
  · rw [hsucc]
  · rw [hsucc]
    exact h
  · rw [h2, record_failure_opens_step _ _ _ (by decide) (by decide)]
    exact is_open_true_of_recent 0 _ 0 rfl rfl
      (by norm_num [transitionToOpen])
  · rw [h2]
    exact is_open_false_of_not_open 0 _ (fun hx => CBState.noConfusion hx)

/-- Witness for C4's amended theorem on a concrete closed breaker. -/
theorem closed_state_counter_dynamics_witness :
    (record_failure "r" 5 closedSample).failures
      = closedSample.failures + 1 :=
  (closed_state_counter_dynamics closedSample "r" 5 rfl).1

/-- C5: While half-open, any single `record_failure` immediately reopens
the breaker, and `half_open_max_calls` consecutive `record_success`
calls close it with both the failure counter and the half-open success
counter reset to zero. -/
theorem half_open_transitions (b : CircuitBreaker) (r : String)
    (now : ℚ) :
    (b.state = CBState.halfOpen →
      (record_failure r now b).state = CBState.opened) ∧
    (b.state = CBState.halfOpen → b.successes_in_half_open = 0 →
      1 ≤ b.half_open_max_calls →
      (record_success^[b.half_open_max_calls] b).state = CBState.closed ∧
      (record_success^[b.half_open_max_calls] b).failures = 0 ∧
      (record_success^[b.half_open_max_calls] b).successes_in_half_open
        = 0) := by
  constructor
  · intro hb
    unfold record_failure
    dsimp only
    rw [if_pos hb]
    rfl
  · intro hb hsucc hmax
    exact record_success_halfOpen_run b.half_open_max_calls b hb
      (by omega) hmax

/-- Witness for C5 on a concrete half-open breaker with
`half_open_max_calls = 2`. -/
theorem half_open_transitions_witness :
    (record_failure "spike" 20 halfOpenSample).state = CBState.opened ∧
    (record_success^[halfOpenSample.half_open_max_calls]
      halfOpenSample).state = CBState.closed :=
  ⟨(half_open_transitions halfOpenSample "spike" 20).1 rfl,
   ((half_open_transitions halfOpenSample "spike" 20).2 rfl rfl
     (by decide)).1⟩

/-- C6: The open-to-half-open transition is lazy: once the recovery
timeout has elapsed since the last failure, any state read (`is_open`,
`state`, `can_execute`, `get_state`) performs the transition, while the
recording operations never move an open breaker to half-open
(`record_success` leaves it untouched and `record_failure` keeps it
open) — so an unread breaker stays open past its recovery time. -/
theorem open_to_half_open_lazy (b : CircuitBreaker) (now t : ℚ)
    (h1 : b.state = CBState.opened) (h2 : b.last_failure_time = some t)
    (h3 : b.recovery_timeout ≤ now - t) :
    (checkStateTransition now b).state = CBState.halfOpen ∧
    (is_open now b).1 = false ∧
    (is_open now b).2.state = CBState.halfOpen ∧
    (state_read now b).1 = CBState.halfOpen ∧
    (can_execute now b).1 = true ∧
    (get_state now b).2.state = CBState.halfOpen ∧
    (∀ (r : String) (now2 : ℚ),
      (record_failure r now2 b).state = CBState.opened) ∧
    record_success b = b := by
  have hnh : b.state ≠ CBState.halfOpen := by
    rw [h1]
    exact fun hx => CBState.noConfusion hx
  have hnc : b.state ≠ CBState.closed := by
    rw [h1]
    exact fun hx => CBState.noConfusion hx
  have hc : checkStateTransition now b = transitionToHalfOpen b := by
    unfold checkStateTransition
    rw [if_pos h1, h2]
    dsimp only
    rw [if_pos h3]
  refine ⟨by rw [hc]; rfl, ?_, ?_, ?_, ?_, ?_, ?_, ?_⟩
  · unfold is_open
    dsimp only
    rw [hc]
    rfl
  · unfold is_open
    dsimp only
    rw [hc]
    rfl
  · unfold state_read
    dsimp only
    rw [hc]
    rfl
  · unfold can_execute
    dsimp only
    rw [hc]
    rfl
  · unfold get_state
    dsimp only
    rw [hc]
    rfl
  · intro r now2
    unfold record_failure
    dsimp only
    rw [if_neg hnh]
    split
    · rfl
    · exact h1
  · unfold record_success
    dsimp only
    rw [if_neg hnh, if_neg hnc]

/-- Witness for C6 on a concrete open breaker read exactly at its
recovery time. -/
theorem open_to_half_open_lazy_witness :
    (checkStateTransition 60 openSample).state = CBState.halfOpen :=
  (open_to_half_open_lazy openSample 60 0 rfl rfl
    (by norm_num [openSample])).1

/-- `record_failure` never changes the configured threshold. -/
theorem record_failure_threshold (r : String) (now : ℚ)
    (b : CircuitBreaker) :
    (record_failure r now b).failure_threshold = b.failure_threshold := by
  unfold record_failure transitionToOpen
  dsimp only
  split
  · rfl
  · split <;> rfl

/-- `record_failure` never changes the configured recovery timeout. -/
theorem record_failure_rt (r : String) (now : ℚ) (b : CircuitBreaker) :
    (record_failure r now b).recovery_timeout = b.recovery_timeout := by
  unfold record_failure transitionToOpen
  dsimp only
  split
  · rfl
  · split <;> rfl

/-- C7: `process_detection` records `floor(weight)` failures for an
anomalous result (LOW=0.5, MEDIUM=1.0, HIGH=2.0, CRITICAL=3.0, so a
CRITICAL anomaly advances the failure counter by 3 in one call and a
LOW anomaly records no failure at all) and exactly one success for a
non-anomalous result; two CRITICAL detections on a fresh breaker with
threshold 5 open it (3 + 3 = 6 ≥ 5). -/
theorem process_detection_weighted (b : CircuitBreaker) (now : ℚ)
    (r : AnomalyDetectionResult) :
    (r.is_anomaly = true →
      (processDetection r now b).failures =
        b.failures + severityIntWeight r.severity) ∧
    (r.is_anomaly = false →
      processDetection r now b = record_success b) ∧
    severityIntWeight Severity.LOW = 0 ∧
    severityIntWeight Severity.MEDIUM = 1 ∧
    severityIntWeight Severity.HIGH = 2 ∧
    severityIntWeight Severity.CRITICAL = 3 ∧
    (r.is_anomaly = true → r.severity = Severity.LOW →
      processDetection r now b = b) ∧
    (is_open 0 (processDetection criticalSample 0
      (processDetection criticalSample 0
        (mkCircuitBreaker 5 60 3)))).1 = true := by
  have hLOW : severityIntWeight Severity.LOW = 0 := by
    norm_num [severityIntWeight, severityWeight, Rat.floor]
  have hPD : ∀ bb : CircuitBreaker, processDetection criticalSample 0 bb =
      record_failure (detectionReason criticalSample) 0
        (record_failure (detectionReason criticalSample) 0
          (record_failure (detectionReason criticalSample) 0 bb)) := by
    intro bb
    unfold processDetection
    rw [if_pos (show criticalSample.is_anomaly = true from rfl)]
    rfl
  refine ⟨?_, ?_, hLOW, ?_, ?_, ?_, ?_, ?_⟩
  · intro ha
    unfold processDetection
    rw [if_pos ha]
    exact record_failure_iterate_failures _ _ _ b
  · intro ha
    unfold processDetection
    rw [if_neg (by simp [ha])]
  · norm_num [severityIntWeight, severityWeight, Rat.floor]
    try decide
  · norm_num [severityIntWeight, severityWeight, Rat.floor]
    try decide
  · norm_num [severityIntWeight, severityWeight, Rat.floor]
    try decide
  · intro ha hs
    unfold processDetection
    rw [if_pos ha, hs, hLOW]
    rfl
  · rw [hPD (processDetection criticalSample 0 (mkCircuitBreaker 5 60 3)),
      hPD (mkCircuitBreaker 5 60 3)]
    refine is_open_true_of_recent 0 _ 0 ?_ (record_failure_time _ _ _) ?_
    · apply record_failure_opens
      simp [record_failure_threshold, record_failure_failures,
        mkCircuitBreaker]
    · simp [record_failure_rt, mkCircuitBreaker]
      try norm_num

/-- Witness for C7: one CRITICAL detection on a fresh breaker advances
the failure counter by the CRITICAL weight. -/
theorem process_detection_weighted_witness :
    (processDetection criticalSample 0 (mkCircuitBreaker 5 60 3)).failures
      = (mkCircuitBreaker 5 60 3).failures +
        severityIntWeight criticalSample.severity :=
  (process_detection_weighted (mkCircuitBreaker 5 60 3) 0
    criticalSample).1 rfl

/-- C8 counterexample: the constructor accepts the weight list
`[1.5, -0.5]` (sum exactly 1) even though it has a negative entry, and
silently replaces an empty weight list with the default instead of
rejecting it — so the claimed full invariant (non-empty, all entries
non-negative) is *not* validated. -/
theorem init_accepts_invalid_weights :
    initOk (sentinelInit (1/10) (some [3/2, -1/2])) = true ∧
    ((-1/2 : ℚ) < 0) ∧
    initOk (sentinelInit (1/10) (some [])) = true := by
  refine ⟨?_, by norm_num, ?_⟩
  · rw [initOk_iff, abs_le]
    constructor <;> norm_num [effectiveWeights, listSum]
  · rw [initOk_iff, abs_le]
    constructor <;> norm_num [effectiveWeights, defaultWeights, listSum]

/-- C8 (amended): construction validates only that the (defaulted)
weights sum to 1.0 within 0.001 — `[0.5, 0.5, 0.5]` raises the
configuration error, but entries are not checked for non-negativity and
an empty sequence is silently replaced by the default `[0.4, 0.3, 0.3]`
(Python's falsy-`or`) rather than rejected. -/
theorem init_validates_sum_only (c : ℚ) (w : List ℚ) :
    (initOk (sentinelInit c (some w)) = true ↔
      |listSum (effectiveWeights (some w)) - 1| ≤ 1/1000) ∧
    initOk (sentinelInit c (some [1/2, 1/2, 1/2])) = false ∧
    sentinelInit c (some []) = sentinelInit c none := by
  refine ⟨initOk_iff c (some w), ?_, rfl⟩
  rw [Bool.eq_false_iff]
  intro hx
  have hs := (initOk_iff c (some [1/2, 1/2, 1/2])).1 hx
  rw [abs_le] at hs
  have h2 := hs.2
  norm_num [effectiveWeights, listSum] at h2

/-- C9 counterexample: with the valid weight configuration
`[0.4, 0.3, 0.301]` (non-negative, sum `1.001`, inside the tolerance)
the ensemble score of the batch `[[0], [1]]` is `[0, 1.001]` — the final
ensemble score exceeds 1, so it does not always lie in `[0, 1]`. -/
theorem ensemble_score_exceeds_one :
    ensembleScore sampleDetectors wideSentinel [[0], [1]]
      = [0, 1001/1000] ∧
    (1 : ℚ) < 1001/1000 ∧
    |listSum wideSentinel.ensemble_weights - 1| ≤ 1/1000 ∧
    wideSentinel.ensemble_weights = [2/5, 3/10, 301/1000] ∧
    ((0 : ℚ) ≤ 2/5 ∧ (0 : ℚ) ≤ 3/10 ∧ (0 : ℚ) ≤ 301/1000) := by
  refine ⟨?_, by norm_num, ?_, rfl, by norm_num, by norm_num, by norm_num⟩
  · norm_num [ensembleScore, sentinelNormalize, sampleDetectors,
      wideSentinel, normalize_scores, listMin, listMax, eps, min_def,
      max_def]
  · rw [abs_le]
    constructor <;> norm_num [wideSentinel, listSum]

/-- C9 (amended): every rescaled per-detector contribution lies in
`[0, 1]`, and with non-negative weights every ensemble score lies in
`[0, w0 + w1 + w2]` — which is `[0, 1]` only when the weights sum to
exactly 1; the tolerance admits sums up to 1.001, so the ensemble score
may reach 1.001. -/
theorem ensemble_score_range (D : Detectors) (S : SentinelAI)
    (l : List ℚ) (rows : List (List ℚ)) (x y : ℚ)
    (hx : x ∈ normalize_scores l) (hy : y ∈ ensembleScore D S rows)
    (h0 : 0 ≤ S.ensemble_weights.getD 0 0)
    (h1 : 0 ≤ S.ensemble_weights.getD 1 0)
    (h2 : 0 ≤ S.ensemble_weights.getD 2 0) :
    (0 ≤ x ∧ x ≤ 1) ∧
    (0 ≤ y ∧ y ≤ S.ensemble_weights.getD 0 0 +
      S.ensemble_weights.getD 1 0 + S.ensemble_weights.getD 2 0) := by
  refine ⟨normalize_scores_mem_bounds hx, ?_⟩
  rcases ensembleScore_decompose D S rows hy with ⟨a, b, c, ha, hb, hc, hy2⟩
  subst hy2
  exact weighted_sum_bounds h0 h1 h2 ha hb hc

/-- Witness for C9's amended range theorem at the default-weight
scorer and the batch `[[0], [1]]`. -/
theorem ensemble_score_range_witness :
    ((0 : ℚ) ≤ 1 ∧ (1 : ℚ) ≤ 1) ∧
    ((0 : ℚ) ≤ 1 ∧ (1 : ℚ) ≤ sampleSentinel.ensemble_weights.getD 0 0 +
      sampleSentinel.ensemble_weights.getD 1 0 +
      sampleSentinel.ensemble_weights.getD 2 0) :=
  ensemble_score_range sampleDetectors sampleSentinel [0, 1] [[0], [1]] 1 1
    (by
      have hn : normalize_scores [0, 1] = [0, 1] := by
        norm_num [normalize_scores, listMin, listMax, eps, min_def,
          max_def]
      rw [hn]
      simp)
    (by
      have he : ensembleScore sampleDetectors sampleSentinel [[0], [1]]
          = [0, 1] := by
        norm_num [ensembleScore, sentinelNormalize, sampleDetectors,
          sampleSentinel, normalize_scores, listMin, listMax, eps,
          min_def, max_def]
      rw [he]
      simp)
    (by norm_num [sampleSentinel]) (by norm_num [sampleSentinel])
    (by norm_num [sampleSentinel])
